import Mathlib

/-!
# dahu-git: clone orchestration and error classification

A shallow embedding of `client/git.go`, `types/request.go` and the handler of
`dahu-git.go`, followed by the properties proved about it.

Conventions of the embedding.

* A Go `error` is `Option GoError`; `none` is `nil`.  A non-nil error is one of
  the two go-git sentinel values, which Go compares by identity, or any other
  error value, which the code can only tell apart by its `Error()` text.
  `Error()` is total: an error value whose method does not return is not
  modelled.
* A Go `string` is a Lean `String`.  The three patterns searched for are ASCII,
  so searching code points agrees with Go searching bytes.
* What the code uses from outside the repository (the text of the two
  sentinels, the rune mapping behind `strings.ToLower`, the key parser and the
  clone primitive of go-git) is collected in `Lib` and `Env` and passed
  explicitly.
* Effects (log lines, the call of the clone primitive, calls of the two
  entry points, `WriteHeader`) are recorded in a trace of `Event`s, in order.
-/

namespace DahuGit

/-! ## Go standard library: package `strings` -/

namespace strings

/-- Search `substr` in every suffix of the text: it is found when it is a
prefix of one of them. -/
def containsAux (substr : List Char) : List Char → Bool
  | [] => substr.isEmpty
  | c :: s => substr.isPrefixOf (c :: s) || containsAux substr s

/-- Go `strings.Contains(s, substr)`: reports whether `substr` is within `s`. -/
def Contains (s substr : String) : Bool :=
  containsAux substr.data s.data

/-- Go `strings.ToLower(s)`: every rune of `s` mapped by the lower-casing of
runes, which is the argument `lower` (Go: `unicode.ToLower`). -/
def ToLower (lower : Char → Char) (s : String) : String :=
  ⟨s.data.map lower⟩

end strings

/-! ## Go errors and the parts of the libraries the classifier reads -/

/-- A non-nil Go `error` value as `fromGitToGitError` can observe it: the two
sentinels of go-git `plumbing/transport`, recognised by identity in the
`switch`, and every other error value, known only by the text of `Error()`. -/
inductive GoError where
  | ErrRepositoryNotFound
  | ErrAuthenticationRequired
  | other (text : String)
  deriving DecidableEq, Repr

/-- The library facts `fromGitToGitError` depends on: the `Error()` text of the
two sentinels and the rune lower-casing used by `strings.ToLower`. -/
structure Lib where
  repositoryNotFoundText : String
  authenticationRequiredText : String
  toLowerRune : Char → Char

/-- Modelled from the spec: the text of the two sentinel errors, which go-git
defines and the repository only imports.  The spec names them the sentinel
"repository not found" and the sentinel "authentication required".  The rune
lower-casing stays an argument. -/
def goGit (lower : Char → Char) : Lib :=
  { repositoryNotFoundText := "repository not found"
    authenticationRequiredText := "authentication required"
    toLowerRune := lower }

/-- Go `err.Error()`. -/
def GoError.Error (L : Lib) : GoError → String
  | .ErrRepositoryNotFound => L.repositoryNotFoundText
  | .ErrAuthenticationRequired => L.authenticationRequiredText
  | .other text => text

/-! ## `client/git.go`: the error taxonomy -/

/-- `client.GitErrorType`: `BadCredentials = 1 + iota`, then the next three. -/
inductive GitErrorType where
  | BadCredentials
  | RepositoryNotFound
  | SshKeyReadingError
  | OtherError
  deriving DecidableEq, Repr

/-- The integer value of a `GitErrorType` constant in the Go source. -/
def GitErrorType.toInt : GitErrorType → Int
  | .BadCredentials => 1
  | .RepositoryNotFound => 2
  | .SshKeyReadingError => 3
  | .OtherError => 4

/-- `client.simpleGitError`, the only implementation of `client.GitError`. -/
structure simpleGitError where
  msg : String
  errType : GitErrorType
  deriving DecidableEq, Repr

/-- `client.GitError`: a nil interface value is `none : Option GitError`. -/
abbrev GitError := simpleGitError

/-- `func (err simpleGitError) Error() string`. -/
def simpleGitError.Error (err : simpleGitError) : String := err.msg

/-- `func (err simpleGitError) ErrorType() GitErrorType`. -/
def simpleGitError.ErrorType (err : simpleGitError) : GitErrorType := err.errType

/-- `client.newGitError`. -/
def newGitError (msg : String) (errType : GitErrorType) : GitError :=
  { msg := msg, errType := errType }

/-- The `default` branch of the `switch` in `fromGitToGitError`: the chain of
substring tests on the text of the error. -/
def classifyText (L : Lib) (errStr : String) : GitError :=
  if strings.Contains errStr "no supported methods remain" then
    newGitError errStr .BadCredentials
  else if strings.Contains (strings.ToLower L.toLowerRune errStr) "repository does not exist" then
    newGitError errStr .RepositoryNotFound
  else if strings.Contains (strings.ToLower L.toLowerRune errStr) "couldn't find remote ref" then
    newGitError errStr .RepositoryNotFound
  else
    newGitError errStr .OtherError

/-- `client.fromGitToGitError`. -/
def fromGitToGitError (L : Lib) (err : Option GoError) : Option GitError :=
  match err with
  | none => none
  | some e =>
    let errStr := e.Error L
    match e with
    | .ErrRepositoryNotFound => some (newGitError errStr .RepositoryNotFound)
    | .ErrAuthenticationRequired => some (newGitError errStr .BadCredentials)
    | .other _ => some (classifyText L errStr)

/-- The kind carried by a classification result, `none` for success. -/
def kindOf (r : Option GitError) : Option GitErrorType :=
  r.map simpleGitError.ErrorType

/-! ## `types/request.go` -/

namespace types

/-- `types.SshAuth`. -/
structure SshAuth where
  Url : String
  Key : String
  KeyPassword : String
  deriving DecidableEq, Repr

/-- `types.HttpAuth`. -/
structure HttpAuth where
  Url : String
  User : String
  Password : String
  deriving DecidableEq, Repr

/-- The `io.Writer` values of the program: only `os.Stdout` is ever used. -/
inductive Writer where
  | Stdout
  deriving DecidableEq, Repr

/-- `types.CloneContext`. -/
structure CloneContext where
  Directory : String
  NoCheckout : Bool
  Branch : String
  Progress : Writer
  deriving DecidableEq, Repr

/-- `types.CloneRequest`, the decoded JSON body. -/
structure CloneRequest where
  SshAuth : types.SshAuth
  HttpAuth : types.HttpAuth
  Branch : String
  NoCheckout : Bool
  UseSsh : Bool
  UseHttp : Bool
  deriving DecidableEq, Repr

end types

/-! ## go-git: what `client/git.go` builds and calls -/

/-- `ssh.HostKeyCallback` values built by the code. -/
inductive HostKeyCallback where
  | InsecureIgnoreHostKey
  deriving DecidableEq, Repr

/-- go-git `ssh.PublicKeys`: the user, the signer parsed from the key (kept as
the data the parser produced) and the host key callback, unset after
`NewPublicKeys`. -/
structure PublicKeys where
  User : String
  Signer : String
  HostKeyCallback : Option HostKeyCallback
  deriving DecidableEq, Repr

/-- `transport.AuthMethod`: the two implementations the code constructs. -/
inductive AuthMethod where
  | PublicKeys (k : DahuGit.PublicKeys)
  | BasicAuth (Username Password : String)
  deriving DecidableEq, Repr

/-- `git.TagMode`. -/
inductive TagMode where
  | InvalidTagMode
  | TagFollowing
  | AllTags
  | NoTags
  deriving DecidableEq, Repr

/-- `git.DefaultSubmoduleRecursionDepth`. -/
def DefaultSubmoduleRecursionDepth : Nat := 10

/-- `git.CloneOptions`, the fields `doClone` sets. -/
structure CloneOptions where
  URL : String
  NoCheckout : Bool
  RecurseSubmodules : Nat
  Auth : AuthMethod
  SingleBranch : Bool
  ReferenceName : String
  Progress : types.Writer
  Tags : TagMode
  deriving DecidableEq, Repr

/-- The external collaborators of the orchestrator, on top of `Lib`:
`ssh.NewPublicKeys(user, pemBytes, password)`, which parses the key or fails,
and `git.PlainClone(path, isBare, options)`, of which only the returned error
is used. -/
structure Env extends Lib where
  NewPublicKeys : String → String → String → Except GoError PublicKeys
  PlainClone : String → Bool → CloneOptions → Option GoError

/-- What a run does to the outside, in order: a line given to `log`, a call of
`git.PlainClone`, the entry into one of the two entry points of the
orchestrator, a call of `w.WriteHeader`. -/
inductive Event where
  | log (line : String)
  | PlainClone (path : String) (isBare : Bool) (o : CloneOptions)
  | CloneWithSsh (ctx : types.CloneContext) (auth : types.SshAuth)
  | CloneWithHttp (ctx : types.CloneContext) (auth : types.HttpAuth)
  | WriteHeader (code : Nat)
  deriving DecidableEq, Repr

/-! ## `client/git.go`: the orchestrator -/

/-- `client.doClone`: log, clone, log, classify. -/
def doClone (E : Env) (url : String) (ctx : types.CloneContext) (gitAuth : AuthMethod) :
    Option GitError × List Event :=
  let o : CloneOptions :=
    { URL := url
      NoCheckout := ctx.NoCheckout
      RecurseSubmodules := DefaultSubmoduleRecursionDepth
      Auth := gitAuth
      SingleBranch := true
      ReferenceName := "refs/heads/" ++ ctx.Branch
      Progress := ctx.Progress
      Tags := .NoTags }
  let err := E.PlainClone ctx.Directory false o
  let finished :=
    match err with
    | none => Event.log "Git >> Clone finished without error"
    | some e => Event.log ("Git >> Clone finished with error : " ++ e.Error E.toLib)
  (fromGitToGitError E.toLib err,
    [Event.log ("Git >> start cloning repository " ++ url ++ " on branch " ++ ctx.Branch),
     Event.PlainClone ctx.Directory false o,
     finished])

/-- `client.CloneWithSsh`. -/
def CloneWithSsh (E : Env) (ctx : types.CloneContext) (auth : types.SshAuth) :
    Option GitError × List Event :=
  match E.NewPublicKeys "git" auth.Key auth.KeyPassword with
  | .error sshError =>
    (some (newGitError (sshError.Error E.toLib) .SshKeyReadingError),
      [Event.CloneWithSsh ctx auth])
  | .ok gitAuth =>
    let gitAuth := { gitAuth with HostKeyCallback := some .InsecureIgnoreHostKey }
    let r := doClone E auth.Url ctx (.PublicKeys gitAuth)
    (r.1, Event.CloneWithSsh ctx auth :: r.2)

/-- `client.CloneWithHttp`. -/
def CloneWithHttp (E : Env) (ctx : types.CloneContext) (auth : types.HttpAuth) :
    Option GitError × List Event :=
  let gitAuth := AuthMethod.BasicAuth auth.User auth.Password
  let r := doClone E auth.Url ctx gitAuth
  (r.1, Event.CloneWithHttp ctx auth :: r.2)

/-! ## `dahu-git.go`: the handler -/

namespace http

/-- `http.StatusOK`. -/
def StatusOK : Nat := 200
/-- `http.StatusBadRequest`. -/
def StatusBadRequest : Nat := 400
/-- `http.StatusForbidden`. -/
def StatusForbidden : Nat := 403
/-- `http.StatusNotFound`. -/
def StatusNotFound : Nat := 404

end http

/-- `main.cloneHandler`. -/
structure cloneHandler where
  directory : String
  deriving DecidableEq, Repr

/-- The `cloneContext` that `ServeHTTP` builds from the handler and the decoded
request. -/
def cloneHandler.cloneContext (h : cloneHandler) (cloneReq : types.CloneRequest) :
    types.CloneContext :=
  { Directory := h.directory
    NoCheckout := cloneReq.NoCheckout
    Branch := cloneReq.Branch
    Progress := .Stdout }

/-- The second half of `ServeHTTP`: the status written for the value of `err`. -/
def cloneHandler.writeStatus (err : Option GitError) : Event :=
  match err with
  | none => .WriteHeader http.StatusOK
  | some err =>
    if err.ErrorType = .RepositoryNotFound then .WriteHeader http.StatusNotFound
    else if err.ErrorType = .BadCredentials then .WriteHeader http.StatusForbidden
    else if err.ErrorType = .SshKeyReadingError then .WriteHeader http.StatusBadRequest
    else .WriteHeader http.StatusBadRequest

/-- `cloneHandler.ServeHTTP` on `cloneReq`, the value `d.Decode` left in the
request variable (its error is ignored by the code): the trace of the whole
request. -/
def cloneHandler.ServeHTTP (E : Env) (h : cloneHandler) (cloneReq : types.CloneRequest) :
    List Event :=
  let cloneContext := h.cloneContext cloneReq
  if cloneReq.UseSsh then
    let r := CloneWithSsh E cloneContext cloneReq.SshAuth
    r.2 ++ [cloneHandler.writeStatus r.1]
  else if cloneReq.UseHttp then
    let r := CloneWithHttp E cloneContext cloneReq.HttpAuth
    r.2 ++ [cloneHandler.writeStatus r.1]
  else
    [.WriteHeader http.StatusBadRequest]

/-! ## Reading a trace -/

/-- The status codes given to `WriteHeader`, in order. -/
def headersWritten (t : List Event) : List Nat :=
  t.filterMap fun
    | .WriteHeader code => some code
    | _ => none

/-- The entries into the orchestrator (`CloneWithSsh`, `CloneWithHttp`), in
order. -/
def orchestratorCalls (t : List Event) : List Event :=
  t.filter fun
    | .CloneWithSsh _ _ => true
    | .CloneWithHttp _ _ => true
    | _ => false

/-- The calls of the clone primitive `git.PlainClone`, in order. -/
def cloneCalls (t : List Event) : List Event :=
  t.filter fun
    | .PlainClone _ _ _ => true
    | _ => false

/-- The lines given to `log`, in order. -/
def logLines (t : List Event) : List String :=
  t.filterMap fun
    | .log line => some line
    | _ => none

/-- The lookup table of the spec, from the outcome of a request to the status:
success→200, RepositoryNotFound→404, BadCredentials→403,
SshKeyReadingError→400, OtherError→400.  The outcome is the kind the
orchestrator returned, `none` for success. -/
def statusTable : Option GitErrorType → Nat
  | none => 200
  | some .RepositoryNotFound => 404
  | some .BadCredentials => 403
  | some .SshKeyReadingError => 400
  | some .OtherError => 400

/-! ## A concrete environment

The requests of `dahu-git_test.go` run against a test server; `testEnv` plays
its part, so that the model can be evaluated on concrete requests. -/

/-- A key parser that rejects empty key material and accepts any other. -/
def testNewPublicKeys (user pemBytes _password : String) : Except GoError PublicKeys :=
  if pemBytes = "" then .error (.other "invalid PEM data")
  else .ok { User := user, Signer := pemBytes, HostKeyCallback := none }

/-- A clone primitive with one public repository holding the branch `master`,
one private repository, and no other repository. -/
def testPlainClone (_path : String) (_isBare : Bool) (o : CloneOptions) : Option GoError :=
  if o.URL = "http://localhost:10080/tester/test-repo-pub.git" then
    if o.ReferenceName = "refs/heads/master" then none
    else some (.other "couldn't find remote ref")
  else if o.URL = "http://localhost:10080/tester/test-repo.git" then
    some .ErrAuthenticationRequired
  else if o.URL = "http://localhost:10080/tester/wrong-repo-pub.git" then
    some .ErrRepositoryNotFound
  else
    some (.other "dial tcp: connection refused")

/-- The environment made of the two, with the sentinel texts of go-git and the
lower-casing of ASCII letters. -/
def testEnv : Env :=
  { toLib := goGit Char.toLower
    NewPublicKeys := testNewPublicKeys
    PlainClone := testPlainClone }

/-- The handler of the tests, cloning into `/data`. -/
def testHandler : cloneHandler := { directory := "/data" }

/-- A request for `url` on `master` with the given flags; with `UseSsh` the
key is `key`. -/
def testRequest (url key : String) (useSsh useHttp : Bool) : types.CloneRequest :=
  { SshAuth := { Url := url, Key := key, KeyPassword := "" }
    HttpAuth := { Url := url, User := "", Password := "" }
    Branch := "master"
    NoCheckout := true
    UseSsh := useSsh
    UseHttp := useHttp }

/-! ## Lemmas on `strings.Contains` and `strings.ToLower` -/

theorem containsAux_iff_segment (p s : List Char) :
    strings.containsAux p s = true ↔ p <:+: s := by
  induction s with
  | nil =>
    simp [strings.containsAux, List.isEmpty_iff]
  | cons c s ih =>
    simp only [strings.containsAux, Bool.or_eq_true, List.isPrefixOf_iff_prefix, ih]
    exact List.infix_cons_iff.symm

/-- `strings.Contains s p` holds exactly when `p` stands in `s` between some
text before and some text after. -/
theorem Contains_iff (s p : String) :
    strings.Contains s p = true ↔ ∃ pre post : String, s = pre ++ p ++ post := by
  unfold strings.Contains
  rw [containsAux_iff_segment]
  constructor
  · rintro ⟨a, b, h⟩
    exact ⟨⟨a⟩, ⟨b⟩, String.ext (by simp [h])⟩
  · rintro ⟨pre, post, h⟩
    exact ⟨pre.data, post.data, by simp [h]⟩

theorem Contains_eq_false_iff (s p : String) :
    strings.Contains s p = false ↔ ∀ pre post : String, s ≠ pre ++ p ++ post := by
  rw [← Bool.not_eq_true, Contains_iff]
  simp

/-- A pattern that is found is no longer than the text. -/
theorem Contains_length_le (s p : String) (h : strings.Contains s p = true) :
    p.length ≤ s.length := by
  unfold strings.Contains at h
  rw [containsAux_iff_segment] at h
  exact h.length_le

theorem ToLower_length (lower : Char → Char) (s : String) :
    (strings.ToLower lower s).length = s.length := by
  show (s.data.map lower).length = s.data.length
  exact List.length_map _ _

theorem ToLower_append (lower : Char → Char) (s t : String) :
    strings.ToLower lower (s ++ t) = strings.ToLower lower s ++ strings.ToLower lower t := by
  apply String.ext
  simp [strings.ToLower]

/-- The pattern is found in the lower-cased text exactly when a segment of the
text lower-cases to the pattern. -/
theorem Contains_ToLower_iff (lower : Char → Char) (s p : String) :
    strings.Contains (strings.ToLower lower s) p = true ↔
      ∃ pre mid post : String, s = pre ++ mid ++ post ∧ strings.ToLower lower mid = p := by
  rw [Contains_iff]
  constructor
  · rintro ⟨a, b, h⟩
    have hd : s.data.map lower = (a.data ++ p.data) ++ b.data := by
      have := congrArg String.data h
      simpa [strings.ToLower] using this
    obtain ⟨l₁, l₂, hs, h₁, h₂⟩ := List.map_eq_append_iff.1 hd
    obtain ⟨m₁, m₂, hl, h₃, h₄⟩ := List.map_eq_append_iff.1 h₁
    refine ⟨⟨m₁⟩, ⟨m₂⟩, ⟨l₂⟩, String.ext (by simp [hs, hl]), String.ext ?_⟩
    simpa [strings.ToLower] using h₄
  · rintro ⟨pre, mid, post, hs, hmid⟩
    refine ⟨strings.ToLower lower pre, strings.ToLower lower post, ?_⟩
    rw [hs, ToLower_append, ToLower_append, hmid]

/-! ## The classifier: `fromGitToGitError` -/

theorem kindOf_other (L : Lib) (text : String) :
    kindOf (fromGitToGitError L (some (.other text))) = some (classifyText L text).errType := rfl

theorem classifyText_first (L : Lib) (text : String)
    (h : strings.Contains text "no supported methods remain" = true) :
    (classifyText L text).errType = .BadCredentials := by
  simp [classifyText, h, newGitError]

theorem classifyText_second (L : Lib) (text : String)
    (h₁ : strings.Contains text "no supported methods remain" = false)
    (h₂ : strings.Contains (strings.ToLower L.toLowerRune text) "repository does not exist" = true) :
    (classifyText L text).errType = .RepositoryNotFound := by
  simp [classifyText, h₁, h₂, newGitError]

theorem classifyText_third (L : Lib) (text : String)
    (h₁ : strings.Contains text "no supported methods remain" = false)
    (h₃ : strings.Contains (strings.ToLower L.toLowerRune text) "couldn't find remote ref" = true) :
    (classifyText L text).errType = .RepositoryNotFound := by
  unfold classifyText
  simp only [h₁, h₃, Bool.false_eq_true, if_false, if_true]
  split <;> rfl

theorem classifyText_none (L : Lib) (text : String)
    (h₁ : strings.Contains text "no supported methods remain" = false)
    (h₂ : strings.Contains (strings.ToLower L.toLowerRune text) "repository does not exist" = false)
    (h₃ : strings.Contains (strings.ToLower L.toLowerRune text) "couldn't find remote ref" = false) :
    (classifyText L text).errType = .OtherError := by
  simp [classifyText, h₁, h₂, h₃, newGitError]

theorem classifyText_msg (L : Lib) (text : String) : (classifyText L text).msg = text := by
  unfold classifyText
  repeat' split
  all_goals rfl

theorem classifyText_kinds (L : Lib) (text : String) :
    (classifyText L text).errType = .BadCredentials ∨
    (classifyText L text).errType = .RepositoryNotFound ∨
    (classifyText L text).errType = .OtherError := by
  unfold classifyText
  repeat' split
  all_goals simp [newGitError]

/-- The text of the sentinel "authentication required" is too short to hold a
pattern of 24 characters or more, whatever the lower-casing of runes. -/
theorem authenticationRequired_too_short (lower : Char → Char) (p : String)
    (hp : 24 ≤ p.length) :
    strings.Contains (strings.ToLower lower "authentication required") p = false := by
  rw [← Bool.not_eq_true]
  intro h
  have hle := Contains_length_le _ _ h
  rw [ToLower_length] at hle
  have h23 : ("authentication required" : String).length = 23 := by decide
  omega

/-- C1 as stated fails: a handshake error whose text holds "no supported
methods remain" in another letter case is classified OtherError, not
BadCredentials. -/
theorem fromGitToGitError_other_letter_case :
    strings.Contains
        (strings.ToLower Char.toLower
          ((GoError.other "ssh: handshake failed: No Supported Methods Remain").Error
            (goGit Char.toLower)))
        "no supported methods remain" = true ∧
    kindOf (fromGitToGitError (goGit Char.toLower)
        (some (.other "ssh: handshake failed: No Supported Methods Remain")))
      = some .OtherError := by
  decide

/-- C1, amended: for every error whose text contains "no supported methods
remain" in exactly this letter case, with any text before and after,
`fromGitToGitError` returns a GitError whose ErrorType is BadCredentials. -/
theorem fromGitToGitError_no_supported_methods (lower : Char → Char) (e : GoError)
    (pre post : String)
    (h : e.Error (goGit lower) = pre ++ "no supported methods remain" ++ post) :
    kindOf (fromGitToGitError (goGit lower) (some e)) = some .BadCredentials := by
  have hc : strings.Contains (e.Error (goGit lower)) "no supported methods remain" = true :=
    (Contains_iff _ _).2 ⟨pre, post, h⟩
  cases e with
  | ErrRepositoryNotFound =>
    have : strings.Contains "repository not found" "no supported methods remain" = false := by
      decide
    exact absurd hc (by simp [GoError.Error, goGit, this])
  | ErrAuthenticationRequired =>
    have : strings.Contains "authentication required" "no supported methods remain" = false := by
      decide
    exact absurd hc (by simp [GoError.Error, goGit, this])
  | other text =>
    rw [kindOf_other]
    exact congrArg some (classifyText_first (goGit lower) text hc)

theorem fromGitToGitError_no_supported_methods_witness :
    (GoError.other "ssh: handshake failed: no supported methods remain").Error
        (goGit Char.toLower)
      = "ssh: handshake failed: " ++ "no supported methods remain" ++ "" ∧
    kindOf (fromGitToGitError (goGit Char.toLower)
        (some (.other "ssh: handshake failed: no supported methods remain")))
      = some .BadCredentials :=
  ⟨by decide,
   fromGitToGitError_no_supported_methods Char.toLower
     (.other "ssh: handshake failed: no supported methods remain")
     "ssh: handshake failed: " "" (by decide)⟩

/-- C2 as stated fails: a text that holds "repository does not exist" and
also "no supported methods remain" is classified BadCredentials, because the
test for the handshake text comes first. -/
theorem fromGitToGitError_does_not_exist_after_handshake :
    strings.Contains
        (strings.ToLower Char.toLower
          ((GoError.other "no supported methods remain: repository does not exist").Error
            (goGit Char.toLower)))
        "repository does not exist" = true ∧
    kindOf (fromGitToGitError (goGit Char.toLower)
        (some (.other "no supported methods remain: repository does not exist")))
      = some .BadCredentials := by
  decide

/-- C2, amended: for every error whose text contains "repository does not
exist" (compared case-insensitively: a segment of the text lower-cases to it)
and does not contain "no supported methods remain" in exactly that letter
case, `fromGitToGitError` returns a GitError whose ErrorType is
RepositoryNotFound. -/
theorem fromGitToGitError_repository_does_not_exist (lower : Char → Char) (e : GoError)
    (pre mid post : String)
    (h : e.Error (goGit lower) = pre ++ mid ++ post)
    (hmid : strings.ToLower lower mid = "repository does not exist")
    (hfirst : ∀ a b : String, e.Error (goGit lower) ≠ a ++ "no supported methods remain" ++ b) :
    kindOf (fromGitToGitError (goGit lower) (some e)) = some .RepositoryNotFound := by
  have hc : strings.Contains (strings.ToLower lower (e.Error (goGit lower)))
      "repository does not exist" = true :=
    (Contains_ToLower_iff _ _ _).2 ⟨pre, mid, post, h, hmid⟩
  cases e with
  | ErrRepositoryNotFound => rfl
  | ErrAuthenticationRequired =>
    have := authenticationRequired_too_short lower "repository does not exist" (by decide)
    exact absurd hc (by simp [GoError.Error, goGit, this])
  | other text =>
    rw [kindOf_other]
    exact congrArg some
      (classifyText_second (goGit lower) text ((Contains_eq_false_iff _ _).2 hfirst) hc)

theorem fromGitToGitError_repository_does_not_exist_witness :
    (GoError.other "ERROR: Repository Does Not Exist.").Error (goGit Char.toLower)
      = "ERROR: " ++ "Repository Does Not Exist" ++ "." ∧
    strings.ToLower Char.toLower "Repository Does Not Exist" = "repository does not exist" ∧
    kindOf (fromGitToGitError (goGit Char.toLower)
        (some (.other "ERROR: Repository Does Not Exist.")))
      = some .RepositoryNotFound :=
  ⟨by decide, by decide,
   fromGitToGitError_repository_does_not_exist Char.toLower
     (.other "ERROR: Repository Does Not Exist.") "ERROR: " "Repository Does Not Exist" "."
     (by decide) (by decide)
     ((Contains_eq_false_iff _ _).1 (by decide))⟩

/-- C3 as stated fails: a text that holds "couldn't find remote ref" and also
"no supported methods remain" is classified BadCredentials, because the test
for the handshake text comes first. -/
theorem fromGitToGitError_remote_ref_after_handshake :
    strings.Contains
        (strings.ToLower Char.toLower
          ((GoError.other "no supported methods remain: couldn't find remote ref").Error
            (goGit Char.toLower)))
        "couldn't find remote ref" = true ∧
    kindOf (fromGitToGitError (goGit Char.toLower)
        (some (.other "no supported methods remain: couldn't find remote ref")))
      = some .BadCredentials := by
  decide

/-- C3, amended: for every error whose text contains "couldn't find remote
ref" (compared case-insensitively: a segment of the text lower-cases to it)
and does not contain "no supported methods remain" in exactly that letter
case, `fromGitToGitError` returns a GitError whose ErrorType is
RepositoryNotFound. -/
theorem fromGitToGitError_remote_ref (lower : Char → Char) (e : GoError)
    (pre mid post : String)
    (h : e.Error (goGit lower) = pre ++ mid ++ post)
    (hmid : strings.ToLower lower mid = "couldn't find remote ref")
    (hfirst : ∀ a b : String, e.Error (goGit lower) ≠ a ++ "no supported methods remain" ++ b) :
    kindOf (fromGitToGitError (goGit lower) (some e)) = some .RepositoryNotFound := by
  have hc : strings.Contains (strings.ToLower lower (e.Error (goGit lower)))
      "couldn't find remote ref" = true :=
    (Contains_ToLower_iff _ _ _).2 ⟨pre, mid, post, h, hmid⟩
  cases e with
  | ErrRepositoryNotFound => rfl
  | ErrAuthenticationRequired =>
    have := authenticationRequired_too_short lower "couldn't find remote ref" (by decide)
    exact absurd hc (by simp [GoError.Error, goGit, this])
  | other text =>
    rw [kindOf_other]
    exact congrArg some
      (classifyText_third (goGit lower) text ((Contains_eq_false_iff _ _).2 hfirst) hc)

theorem fromGitToGitError_remote_ref_witness :
    (GoError.other "Couldn't find remote ref refs/heads/feature/unknown").Error
        (goGit Char.toLower)
      = "" ++ "Couldn't find remote ref" ++ " refs/heads/feature/unknown" ∧
    strings.ToLower Char.toLower "Couldn't find remote ref" = "couldn't find remote ref" ∧
    kindOf (fromGitToGitError (goGit Char.toLower)
        (some (.other "Couldn't find remote ref refs/heads/feature/unknown")))
      = some .RepositoryNotFound :=
  ⟨by decide, by decide,
   fromGitToGitError_remote_ref Char.toLower
     (.other "Couldn't find remote ref refs/heads/feature/unknown")
     "" "Couldn't find remote ref" " refs/heads/feature/unknown"
     (by decide) (by decide)
     ((Contains_eq_false_iff _ _).1 (by decide))⟩

/-- C4 as stated fails: the sentinel `transport.ErrRepositoryNotFound` is a
non-nil error whose text holds none of the three patterns, and it is
classified RepositoryNotFound, not OtherError. -/
theorem fromGitToGitError_sentinel_not_OtherError :
    strings.Contains (GoError.ErrRepositoryNotFound.Error (goGit Char.toLower))
        "no supported methods remain" = false ∧
    strings.Contains
        (strings.ToLower Char.toLower (GoError.ErrRepositoryNotFound.Error (goGit Char.toLower)))
        "no supported methods remain" = false ∧
    strings.Contains
        (strings.ToLower Char.toLower (GoError.ErrRepositoryNotFound.Error (goGit Char.toLower)))
        "repository does not exist" = false ∧
    strings.Contains
        (strings.ToLower Char.toLower (GoError.ErrRepositoryNotFound.Error (goGit Char.toLower)))
        "couldn't find remote ref" = false ∧
    kindOf (fromGitToGitError (goGit Char.toLower) (some .ErrRepositoryNotFound))
      = some .RepositoryNotFound := by
  decide

/-- C4, amended: for every non-nil error that is neither of the two sentinels
and whose text matches none of the known patterns ("no supported methods
remain" in exactly that letter case, "repository does not exist" and "couldn't
find remote ref" compared case-insensitively), `fromGitToGitError` returns a
GitError whose ErrorType is OtherError. -/
theorem fromGitToGitError_unmatched (L : Lib) (e : GoError)
    (hrepo : e ≠ .ErrRepositoryNotFound) (hauth : e ≠ .ErrAuthenticationRequired)
    (h₁ : ∀ a b : String, e.Error L ≠ a ++ "no supported methods remain" ++ b)
    (h₂ : ∀ a m b : String, e.Error L = a ++ m ++ b →
      strings.ToLower L.toLowerRune m ≠ "repository does not exist")
    (h₃ : ∀ a m b : String, e.Error L = a ++ m ++ b →
      strings.ToLower L.toLowerRune m ≠ "couldn't find remote ref") :
    kindOf (fromGitToGitError L (some e)) = some .OtherError := by
  cases e with
  | ErrRepositoryNotFound => exact absurd rfl hrepo
  | ErrAuthenticationRequired => exact absurd rfl hauth
  | other text =>
    rw [kindOf_other]
    refine congrArg some (classifyText_none L text ((Contains_eq_false_iff _ _).2 h₁) ?_ ?_)
    · rw [← Bool.not_eq_true, Contains_ToLower_iff]
      rintro ⟨a, m, b, hs, hm⟩
      exact h₂ a m b hs hm
    · rw [← Bool.not_eq_true, Contains_ToLower_iff]
      rintro ⟨a, m, b, hs, hm⟩
      exact h₃ a m b hs hm

theorem fromGitToGitError_unmatched_witness :
    kindOf (fromGitToGitError (goGit Char.toLower)
        (some (.other "dial tcp: connection refused")))
      = some .OtherError :=
  fromGitToGitError_unmatched (goGit Char.toLower) (.other "dial tcp: connection refused")
    (by decide) (by decide)
    ((Contains_eq_false_iff _ _).1 (by decide))
    (fun a m b hs hm =>
      absurd ((Contains_ToLower_iff Char.toLower _ _).2 ⟨a, m, b, hs, hm⟩) (by decide))
    (fun a m b hs hm =>
      absurd ((Contains_ToLower_iff Char.toLower _ _).2 ⟨a, m, b, hs, hm⟩) (by decide))

/-- C5: `fromGitToGitError` returns nil exactly when its input is nil, and every
non-nil input yields a GitError whose kind is BadCredentials,
RepositoryNotFound or OtherError, never SshKeyReadingError. -/
theorem fromGitToGitError_nil_iff (L : Lib) (err : Option GoError) :
    (fromGitToGitError L err = none ↔ err = none) ∧
    (∀ e : GoError, err = some e →
      ∃ g : GitError, fromGitToGitError L err = some g ∧
        (g.ErrorType = .BadCredentials ∨ g.ErrorType = .RepositoryNotFound ∨
          g.ErrorType = .OtherError) ∧
        g.ErrorType ≠ .SshKeyReadingError) := by
  constructor
  · cases err with
    | none => simp [fromGitToGitError]
    | some e => cases e <;> simp [fromGitToGitError]
  · rintro e rfl
    cases e with
    | ErrRepositoryNotFound =>
      exact ⟨_, rfl, Or.inr (Or.inl rfl), by simp [simpleGitError.ErrorType, newGitError]⟩
    | ErrAuthenticationRequired =>
      exact ⟨_, rfl, Or.inl rfl, by simp [simpleGitError.ErrorType, newGitError]⟩
    | other text =>
      refine ⟨classifyText L text, rfl, classifyText_kinds L text, ?_⟩
      intro h
      have := classifyText_kinds L text
      simp only [simpleGitError.ErrorType] at h
      simp [h] at this

/-- C6: on the sentinel `transport.ErrRepositoryNotFound` the result is a
GitError whose `ErrorType()` is RepositoryNotFound, and on the sentinel
`transport.ErrAuthenticationRequired` one whose `ErrorType()` is
BadCredentials, each with the text of the sentinel as `Error()`.  This holds
whatever the text of the sentinels is, also a text that holds one of the
patterns: the identity of the error decides, before any substring test. -/
theorem fromGitToGitError_sentinels (L : Lib) :
    (∃ g : GitError, fromGitToGitError L (some .ErrRepositoryNotFound) = some g ∧
      g.ErrorType = .RepositoryNotFound ∧ g.Error = L.repositoryNotFoundText) ∧
    (∃ g : GitError, fromGitToGitError L (some .ErrAuthenticationRequired) = some g ∧
      g.ErrorType = .BadCredentials ∧ g.Error = L.authenticationRequiredText) ∧
    kindOf (fromGitToGitError L (some .ErrRepositoryNotFound)) = some .RepositoryNotFound ∧
    kindOf (fromGitToGitError L (some .ErrAuthenticationRequired)) = some .BadCredentials := by
  refine ⟨⟨_, rfl, ?_, ?_⟩, ⟨_, rfl, ?_, ?_⟩, ?_, ?_⟩
  · simp [newGitError, simpleGitError.ErrorType]
  · simp [newGitError, simpleGitError.Error, GoError.Error]
  · simp [newGitError, simpleGitError.ErrorType]
  · simp [newGitError, simpleGitError.Error, GoError.Error]
  · simp [kindOf, fromGitToGitError, newGitError, simpleGitError.ErrorType]
  · simp [kindOf, fromGitToGitError, newGitError, simpleGitError.ErrorType]

/-- The sentinel test and the substring tests disagree when the text of a
sentinel holds a pattern of the other kind; the sentinel test wins. -/
theorem sentinel_test_precedes_text :
    kindOf (fromGitToGitError
        { repositoryNotFoundText := "no supported methods remain"
          authenticationRequiredText := "repository does not exist"
          toLowerRune := Char.toLower }
        (some .ErrRepositoryNotFound)) = some .RepositoryNotFound ∧
    kindOf (fromGitToGitError (goGit Char.toLower)
        (some (.other "no supported methods remain"))) = some .BadCredentials ∧
    kindOf (fromGitToGitError
        { repositoryNotFoundText := "no supported methods remain"
          authenticationRequiredText := "repository does not exist"
          toLowerRune := Char.toLower }
        (some .ErrAuthenticationRequired)) = some .BadCredentials ∧
    kindOf (fromGitToGitError (goGit Char.toLower)
        (some (.other "repository does not exist"))) = some .RepositoryNotFound := by
  decide

/-- C9: for every non-nil input error `e`, the GitError returned by
`fromGitToGitError` carries the text of `e` unchanged, whichever kind it has. -/
theorem fromGitToGitError_keeps_message (L : Lib) (e : GoError) :
    ∃ g : GitError, fromGitToGitError L (some e) = some g ∧ g.Error = e.Error L := by
  cases e with
  | ErrRepositoryNotFound => exact ⟨_, rfl, rfl⟩
  | ErrAuthenticationRequired => exact ⟨_, rfl, rfl⟩
  | other text => exact ⟨classifyText L text, rfl, classifyText_msg L text⟩

/-! ## The orchestrator: `CloneWithSsh`, `CloneWithHttp` -/

theorem doClone_trace (E : Env) (url : String) (ctx : types.CloneContext) (a : AuthMethod) :
    ∃ (start finished : String) (o : CloneOptions),
      (doClone E url ctx a).2 = [.log start, .PlainClone ctx.Directory false o, .log finished] ∧
      o.Auth = a := by
  simp only [doClone]
  split
  · refine ⟨_, _, _, rfl, ?_⟩
    rfl
  · refine ⟨_, _, _, rfl, ?_⟩
    rfl

theorem CloneWithHttp_trace (E : Env) (ctx : types.CloneContext) (auth : types.HttpAuth) :
    ∃ (start finished : String) (o : CloneOptions),
      (CloneWithHttp E ctx auth).2 =
        [.CloneWithHttp ctx auth, .log start, .PlainClone ctx.Directory false o, .log finished] ∧
      o.Auth = .BasicAuth auth.User auth.Password := by
  obtain ⟨start, finished, o, ht, ha⟩ :=
    doClone_trace E auth.Url ctx (.BasicAuth auth.User auth.Password)
  exact ⟨start, finished, o, by simp [CloneWithHttp, ht], ha⟩

theorem CloneWithSsh_trace (E : Env) (ctx : types.CloneContext) (auth : types.SshAuth) :
    (CloneWithSsh E ctx auth).2 = [.CloneWithSsh ctx auth] ∨
    ∃ (start finished : String) (o : CloneOptions) (k : PublicKeys),
      (CloneWithSsh E ctx auth).2 =
        [.CloneWithSsh ctx auth, .log start, .PlainClone ctx.Directory false o, .log finished] ∧
      o.Auth = .PublicKeys k := by
  unfold CloneWithSsh
  cases E.NewPublicKeys "git" auth.Key auth.KeyPassword with
  | error sshError => exact Or.inl rfl
  | ok gitAuth =>
    obtain ⟨start, finished, o, ht, ha⟩ :=
      doClone_trace E auth.Url ctx
        (.PublicKeys { gitAuth with HostKeyCallback := some .InsecureIgnoreHostKey })
    exact Or.inr ⟨start, finished, o, _, by simp [ht], ha⟩

/-- C8: when `ssh.NewPublicKeys` fails on the key and passphrase of the
credential, `CloneWithSsh` returns a GitError of kind SshKeyReadingError whose
message is the text of the parse error, and its trace holds no call of the
clone primitive and no log line: `doClone` was not entered. -/
theorem CloneWithSsh_key_error (E : Env) (ctx : types.CloneContext) (auth : types.SshAuth)
    (sshError : GoError)
    (h : E.NewPublicKeys "git" auth.Key auth.KeyPassword = .error sshError) :
    (∃ g : GitError, (CloneWithSsh E ctx auth).1 = some g ∧
      g.ErrorType = .SshKeyReadingError ∧ g.Error = sshError.Error E.toLib) ∧
    kindOf (CloneWithSsh E ctx auth).1 = some .SshKeyReadingError ∧
    (∀ (path : String) (isBare : Bool) (o : CloneOptions),
      Event.PlainClone path isBare o ∉ (CloneWithSsh E ctx auth).2) ∧
    cloneCalls (CloneWithSsh E ctx auth).2 = [] ∧
    logLines (CloneWithSsh E ctx auth).2 = [] ∧
    (CloneWithSsh E ctx auth).2 = [.CloneWithSsh ctx auth] := by
  unfold CloneWithSsh
  rw [h]
  refine ⟨⟨_, rfl, ?_, ?_⟩, ?_, ?_, rfl, rfl, rfl⟩
  · simp [newGitError, simpleGitError.ErrorType]
  · simp [newGitError, simpleGitError.Error]
  · simp [kindOf, newGitError, simpleGitError.ErrorType]
  · intro path isBare o hmem
    simp at hmem

theorem CloneWithSsh_key_error_witness :
    testEnv.NewPublicKeys "git" "" "" = .error (.other "invalid PEM data") ∧
    (∃ g : GitError,
      (CloneWithSsh testEnv
          (testHandler.cloneContext
            (testRequest "ssh://git@localhost:10022/tester/test-repo.git" "" true false))
          { Url := "ssh://git@localhost:10022/tester/test-repo.git", Key := "",
            KeyPassword := "" }).1 = some g ∧
      g.ErrorType = .SshKeyReadingError ∧ g.Error = "invalid PEM data") ∧
    cloneCalls
      (CloneWithSsh testEnv
        (testHandler.cloneContext
          (testRequest "ssh://git@localhost:10022/tester/test-repo.git" "" true false))
        { Url := "ssh://git@localhost:10022/tester/test-repo.git", Key := "",
          KeyPassword := "" }).2 = [] :=
  ⟨rfl,
   (CloneWithSsh_key_error testEnv
      (testHandler.cloneContext
        (testRequest "ssh://git@localhost:10022/tester/test-repo.git" "" true false))
      { Url := "ssh://git@localhost:10022/tester/test-repo.git", Key := "", KeyPassword := "" }
      (.other "invalid PEM data") rfl).1,
   (CloneWithSsh_key_error testEnv
      (testHandler.cloneContext
        (testRequest "ssh://git@localhost:10022/tester/test-repo.git" "" true false))
      { Url := "ssh://git@localhost:10022/tester/test-repo.git", Key := "", KeyPassword := "" }
      (.other "invalid PEM data") rfl).2.2.2.1⟩

/-! ## The handler: `cloneHandler.ServeHTTP` -/

theorem writeStatus_eq (err : Option GitError) :
    cloneHandler.writeStatus err = .WriteHeader (statusTable (kindOf err)) := by
  cases err with
  | none => rfl
  | some g =>
    obtain ⟨msg, k⟩ := g
    cases k <;> rfl

theorem headersWritten_append (t u : List Event) :
    headersWritten (t ++ u) = headersWritten t ++ headersWritten u := by
  simp [headersWritten]

theorem orchestratorCalls_append (t u : List Event) :
    orchestratorCalls (t ++ u) = orchestratorCalls t ++ orchestratorCalls u := by
  simp [orchestratorCalls]

theorem cloneCalls_append (t u : List Event) :
    cloneCalls (t ++ u) = cloneCalls t ++ cloneCalls u := by
  simp [cloneCalls]

theorem CloneWithSsh_reads (E : Env) (ctx : types.CloneContext) (auth : types.SshAuth) :
    headersWritten (CloneWithSsh E ctx auth).2 = [] ∧
    orchestratorCalls (CloneWithSsh E ctx auth).2 = [.CloneWithSsh ctx auth] ∧
    (cloneCalls (CloneWithSsh E ctx auth).2).length ≤ 1 ∧
    ∀ (path : String) (isBare : Bool) (o : CloneOptions),
      Event.PlainClone path isBare o ∈ (CloneWithSsh E ctx auth).2 →
      ∃ k : PublicKeys, o.Auth = .PublicKeys k := by
  rcases CloneWithSsh_trace E ctx auth with ht | ⟨start, finished, o, k, ht, ha⟩
  · rw [ht]
    simp [headersWritten, orchestratorCalls, cloneCalls]
  · rw [ht]
    refine ⟨by simp [headersWritten], by simp [orchestratorCalls], by simp [cloneCalls], ?_⟩
    intro path isBare o' hmem
    simp at hmem
    exact ⟨k, by rw [hmem.2.2, ha]⟩

theorem CloneWithHttp_reads (E : Env) (ctx : types.CloneContext) (auth : types.HttpAuth) :
    headersWritten (CloneWithHttp E ctx auth).2 = [] ∧
    orchestratorCalls (CloneWithHttp E ctx auth).2 = [.CloneWithHttp ctx auth] ∧
    (cloneCalls (CloneWithHttp E ctx auth).2).length ≤ 1 ∧
    ∀ (path : String) (isBare : Bool) (o : CloneOptions),
      Event.PlainClone path isBare o ∈ (CloneWithHttp E ctx auth).2 →
      o.Auth = .BasicAuth auth.User auth.Password := by
  obtain ⟨start, finished, o, ht, ha⟩ := CloneWithHttp_trace E ctx auth
  rw [ht]
  refine ⟨by simp [headersWritten], by simp [orchestratorCalls], by simp [cloneCalls], ?_⟩
  intro path isBare o' hmem
  simp at hmem
  rw [hmem.2.2, ha]

theorem ServeHTTP_ssh (E : Env) (h : cloneHandler) (cloneReq : types.CloneRequest)
    (hs : cloneReq.UseSsh = true) :
    h.ServeHTTP E cloneReq =
      (CloneWithSsh E (h.cloneContext cloneReq) cloneReq.SshAuth).2 ++
        [cloneHandler.writeStatus (CloneWithSsh E (h.cloneContext cloneReq) cloneReq.SshAuth).1] := by
  simp [cloneHandler.ServeHTTP, hs]

theorem ServeHTTP_http (E : Env) (h : cloneHandler) (cloneReq : types.CloneRequest)
    (hs : cloneReq.UseSsh = false) (hh : cloneReq.UseHttp = true) :
    h.ServeHTTP E cloneReq =
      (CloneWithHttp E (h.cloneContext cloneReq) cloneReq.HttpAuth).2 ++
        [cloneHandler.writeStatus (CloneWithHttp E (h.cloneContext cloneReq) cloneReq.HttpAuth).1] := by
  simp [cloneHandler.ServeHTTP, hs, hh]

theorem ServeHTTP_neither (E : Env) (h : cloneHandler) (cloneReq : types.CloneRequest)
    (hs : cloneReq.UseSsh = false) (hh : cloneReq.UseHttp = false) :
    h.ServeHTTP E cloneReq = [.WriteHeader http.StatusBadRequest] := by
  simp [cloneHandler.ServeHTTP, hs, hh]

/-- C7: for every request and every outcome of the orchestrator, `ServeHTTP`
writes exactly one status, the one of the lookup table for the kind the
orchestrator returned (200 for no error, 404 for RepositoryNotFound, 403 for
BadCredentials, 400 for SshKeyReadingError, 400 for OtherError), and 400 when
neither `UseSsh` nor `UseHttp` is set. -/
theorem ServeHTTP_status (E : Env) (h : cloneHandler) (cloneReq : types.CloneRequest) :
    (cloneReq.UseSsh = true →
      headersWritten (h.ServeHTTP E cloneReq) =
        [statusTable (kindOf (CloneWithSsh E (h.cloneContext cloneReq) cloneReq.SshAuth).1)]) ∧
    (cloneReq.UseSsh = false → cloneReq.UseHttp = true →
      headersWritten (h.ServeHTTP E cloneReq) =
        [statusTable (kindOf (CloneWithHttp E (h.cloneContext cloneReq) cloneReq.HttpAuth).1)]) ∧
    (cloneReq.UseSsh = false → cloneReq.UseHttp = false →
      headersWritten (h.ServeHTTP E cloneReq) = [400]) ∧
    statusTable none = 200 ∧
    statusTable (some .RepositoryNotFound) = 404 ∧
    statusTable (some .BadCredentials) = 403 ∧
    statusTable (some .SshKeyReadingError) = 400 ∧
    statusTable (some .OtherError) = 400 := by
  refine ⟨?_, ?_, ?_, rfl, rfl, rfl, rfl, rfl⟩
  · intro hs
    rw [ServeHTTP_ssh E h cloneReq hs, headersWritten_append,
      (CloneWithSsh_reads E _ _).1, writeStatus_eq]
    rfl
  · intro hs hh
    rw [ServeHTTP_http E h cloneReq hs hh, headersWritten_append,
      (CloneWithHttp_reads E _ _).1, writeStatus_eq]
    rfl
  · intro hs hh
    rw [ServeHTTP_neither E h cloneReq hs hh]
    rfl

/-- Every row of the lookup table is reached by a request on `testEnv`:
a clone that succeeds, an unknown repository, a private repository, an empty
SSH key, an unreachable host, and a request with no scheme. -/
theorem ServeHTTP_status_rows :
    headersWritten (testHandler.ServeHTTP testEnv
      (testRequest "http://localhost:10080/tester/test-repo-pub.git" "" false true)) = [200] ∧
    headersWritten (testHandler.ServeHTTP testEnv
      (testRequest "http://localhost:10080/tester/wrong-repo-pub.git" "" false true)) = [404] ∧
    headersWritten (testHandler.ServeHTTP testEnv
      (testRequest "http://localhost:10080/tester/test-repo.git" "" false true)) = [403] ∧
    headersWritten (testHandler.ServeHTTP testEnv
      (testRequest "ssh://git@localhost:10022/tester/test-repo.git" "" true false)) = [400] ∧
    kindOf (CloneWithSsh testEnv
      (testHandler.cloneContext (testRequest "ssh://git@localhost:10022/tester/test-repo.git" "" true false))
      (testRequest "ssh://git@localhost:10022/tester/test-repo.git" "" true false).SshAuth).1
        = some .SshKeyReadingError ∧
    headersWritten (testHandler.ServeHTTP testEnv
      (testRequest "ssh://git@nowhere:22/tester/test-repo.git" "key" true false)) = [400] ∧
    kindOf (CloneWithSsh testEnv
      (testHandler.cloneContext (testRequest "ssh://git@nowhere:22/tester/test-repo.git" "key" true false))
      (testRequest "ssh://git@nowhere:22/tester/test-repo.git" "key" true false).SshAuth).1
        = some .OtherError ∧
    headersWritten (testHandler.ServeHTTP testEnv
      (testRequest "http://localhost:10080/tester/test-repo-pub.git" "" false false)) = [400] := by
  refine ⟨?_, ?_, ?_, ?_, ?_, ?_, ?_, ?_⟩ <;> decide

/-- C10: `ServeHTTP` enters the orchestrator at most once and with one
strategy.  With `UseSsh` set (whatever `UseHttp` is) the only entry is
`CloneWithSsh` on the SSH credential of the request, and every call of the
clone primitive carries SSH public keys.  With `UseSsh` unset and `UseHttp`
set the only entry is `CloneWithHttp` on the HTTP credential, and every call of
the clone primitive carries that basic authentication.  With neither set the
whole trace is the status 400: no entry point and no clone primitive is
called.  In every case the clone primitive is called at most once. -/
theorem ServeHTTP_one_strategy (E : Env) (h : cloneHandler) (cloneReq : types.CloneRequest) :
    (cloneReq.UseSsh = true →
      orchestratorCalls (h.ServeHTTP E cloneReq)
        = [.CloneWithSsh (h.cloneContext cloneReq) cloneReq.SshAuth] ∧
      ∀ (path : String) (isBare : Bool) (o : CloneOptions),
        Event.PlainClone path isBare o ∈ h.ServeHTTP E cloneReq →
        ∃ k : PublicKeys, o.Auth = .PublicKeys k) ∧
    (cloneReq.UseSsh = false → cloneReq.UseHttp = true →
      orchestratorCalls (h.ServeHTTP E cloneReq)
        = [.CloneWithHttp (h.cloneContext cloneReq) cloneReq.HttpAuth] ∧
      ∀ (path : String) (isBare : Bool) (o : CloneOptions),
        Event.PlainClone path isBare o ∈ h.ServeHTTP E cloneReq →
        o.Auth = .BasicAuth cloneReq.HttpAuth.User cloneReq.HttpAuth.Password) ∧
    (cloneReq.UseSsh = false → cloneReq.UseHttp = false →
      h.ServeHTTP E cloneReq = [.WriteHeader 400] ∧
      orchestratorCalls (h.ServeHTTP E cloneReq) = [] ∧
      cloneCalls (h.ServeHTTP E cloneReq) = []) ∧
    (orchestratorCalls (h.ServeHTTP E cloneReq)).length ≤ 1 ∧
    (cloneCalls (h.ServeHTTP E cloneReq)).length ≤ 1 := by
  have hw : ∀ r : Option GitError,
      orchestratorCalls [cloneHandler.writeStatus r] = [] ∧
      cloneCalls [cloneHandler.writeStatus r] = [] := by
    intro r
    rw [writeStatus_eq]
    exact ⟨rfl, rfl⟩
  cases hs : cloneReq.UseSsh with
  | true =>
    obtain ⟨_, hcalls, hone, hauth⟩ :=
      CloneWithSsh_reads E (h.cloneContext cloneReq) cloneReq.SshAuth
    have hcalls' : orchestratorCalls (h.ServeHTTP E cloneReq)
        = [.CloneWithSsh (h.cloneContext cloneReq) cloneReq.SshAuth] := by
      rw [ServeHTTP_ssh E h cloneReq hs, orchestratorCalls_append, hcalls, (hw _).1]
      rfl
    refine ⟨fun _ => ⟨hcalls', ?_⟩, fun hf => absurd hf (by simp),
      fun hf => absurd hf (by simp), by simp [hcalls'], ?_⟩
    · intro path isBare o hmem
      rw [ServeHTTP_ssh E h cloneReq hs, writeStatus_eq] at hmem
      simp only [List.mem_append, List.mem_singleton] at hmem
      rcases hmem with hmem | hmem
      · exact hauth path isBare o hmem
      · cases hmem
    · rw [ServeHTTP_ssh E h cloneReq hs, cloneCalls_append, (hw _).2]
      simpa using hone
  | false =>
    cases hh : cloneReq.UseHttp with
    | true =>
      obtain ⟨_, hcalls, hone, hauth⟩ :=
        CloneWithHttp_reads E (h.cloneContext cloneReq) cloneReq.HttpAuth
      have hcalls' : orchestratorCalls (h.ServeHTTP E cloneReq)
          = [.CloneWithHttp (h.cloneContext cloneReq) cloneReq.HttpAuth] := by
        rw [ServeHTTP_http E h cloneReq hs hh, orchestratorCalls_append, hcalls, (hw _).1]
        rfl
      refine ⟨fun hf => absurd hf (by simp), fun _ _ => ⟨hcalls', ?_⟩,
        fun _ hf => absurd hf (by simp), by simp [hcalls'], ?_⟩
      · intro path isBare o hmem
        rw [ServeHTTP_http E h cloneReq hs hh, writeStatus_eq] at hmem
        simp only [List.mem_append, List.mem_singleton] at hmem
        rcases hmem with hmem | hmem
        · exact hauth path isBare o hmem
        · cases hmem
      · rw [ServeHTTP_http E h cloneReq hs hh, cloneCalls_append, (hw _).2]
        simpa using hone
    | false =>
      have ht := ServeHTTP_neither E h cloneReq hs hh
      refine ⟨fun hf => absurd hf (by simp), fun _ hf => absurd hf (by simp),
        fun _ _ => ⟨ht, by rw [ht]; rfl, by rw [ht]; rfl⟩, by rw [ht]; decide, by rw [ht]; decide⟩

/-- A request with both flags set clones over SSH only: the HTTP entry point
is not called. -/
theorem ServeHTTP_both_flags :
    orchestratorCalls (testHandler.ServeHTTP testEnv
      (testRequest "ssh://git@localhost:10022/tester/test-repo.git" "key" true true))
    = [.CloneWithSsh
        (testHandler.cloneContext
          (testRequest "ssh://git@localhost:10022/tester/test-repo.git" "key" true true))
        (testRequest "ssh://git@localhost:10022/tester/test-repo.git" "key" true true).SshAuth] := by
  decide

end DahuGit
